import Mathlib

/-!
Verification of the merchant-store core of the Majic Mall application:
store lifecycle (archive / restore / purge), active-store resolution,
payment-method registry and checkout adapter selection, order-item
snapshotting, and the reporting aggregation.

The definitions below are a shallow embedding of the Python source
(`merchant/models.py`, `merchant/views.py`, `merchant/payments/adapters.py`).
Database tables are modelled as lists of records, timestamps as integer
seconds, and `Decimal` money amounts as integer cents (no division is
performed on money anywhere in the modelled code).  Django querysets are
modelled by `List.filter` / `List.find?` over those lists; a queryset's
`order_by` is modelled by an explicit stable selection function where the
order matters (`firstByCreated`), and by the ambient list order where the
source relies on an unspecified-but-stable order.
-/

namespace Majic

/-- `merchant/models.py` `MerchantStore`: owner, display data, plan and the
archive pair (`is_archived`, `archived_at`).  `created_at` is an epoch
timestamp in seconds; `archived_at` is nullable. -/
structure MerchantStore where
  id : Nat
  owner : Nat
  store_name : String
  plan : String
  created_at : Int
  is_archived : Bool
  archived_at : Option Int
deriving DecidableEq, Repr

/-- Seven days in seconds, the constant `604800` used by `admin_store_purge`
and `timedelta(days=7)` used by the model helpers. -/
def sevenDays : Int := 604800

/-- `MerchantStore.archive`: set `is_archived` and stamp `archived_at = now`. -/
def MerchantStore.archive (s : MerchantStore) (now : Int) : MerchantStore :=
  { s with is_archived := true, archived_at := some now }

/-- `MerchantStore.can_restore`: archived, `archived_at` non-null (truthy), and
`now <= archived_at + 7 days`. -/
def MerchantStore.can_restore (s : MerchantStore) (now : Int) : Bool :=
  s.is_archived &&
    (match s.archived_at with
     | some t => decide (now ≤ t + sevenDays)
     | none => false)

/-- `MerchantStore.restore_deadline`: `archived_at + 7 days` when archived_at
is set, else null. -/
def MerchantStore.restore_deadline (s : MerchantStore) : Option Int :=
  s.archived_at.map (fun t => t + sevenDays)

/-- `MerchantStore.restore`: clear both archive fields, unconditionally. -/
def MerchantStore.restore (s : MerchantStore) : MerchantStore :=
  { s with is_archived := false, archived_at := none }

/-- `merchant/models.py` `Product` (name, price in cents, description),
with `store` the owning store's id. -/
structure Product where
  id : Nat
  store : Nat
  name : String
  price : Int
  description : String
deriving DecidableEq, Repr

/-- `merchant/models.py` `Order`: owning store, status, cached totals and
creation timestamp. -/
structure Order where
  id : Nat
  store : Nat
  status : String
  subtotal : Int
  total : Int
  created_at : Int
deriving DecidableEq, Repr

/-- `merchant/models.py` `OrderItem`: owning order, referenced product and
the snapshot fields `name` / `unit_price` (nullable). -/
structure OrderItem where
  id : Nat
  order : Nat
  product : Nat
  name : String
  quantity : Nat
  unit_price : Option Int
deriving DecidableEq, Repr

/-- `OrderItem.line_total`: `quantity * (unit_price or 0)`. -/
def OrderItem.line_total (it : OrderItem) : Int :=
  (it.quantity : Int) * (it.unit_price.getD 0)

/-- `self.product` FK dereference: look the product row up by primary key. -/
def relatedProduct (products : List Product) (pid : Nat) : Option Product :=
  products.find? (fun p => p.id == pid)

/-- `OrderItem.save`: snapshot `name` from the product when `name` is falsy
(empty) and `product_id` is truthy, snapshot `unit_price` when it is null;
`none` models the `Product.DoesNotExist` raise on a dangling FK. -/
def OrderItem.save (products : List Product) (it : OrderItem) : Option OrderItem :=
  let step1 : Option OrderItem :=
    if it.name = "" ∧ it.product ≠ 0 then
      match relatedProduct products it.product with
      | some p => some { it with name := p.name }
      | none => none
    else some it
  match step1 with
  | none => none
  | some it1 =>
    if it1.unit_price = none ∧ it1.product ≠ 0 then
      match relatedProduct products it1.product with
      | some p => some { it1 with unit_price := some p.price }
      | none => none
    else some it1

/-- `merchant/models.py` `MerchantPaymentMethod`: owning store, provider tag,
active/default flags and the JSON credential blob (modelled as a string
association list, which is how the adapters read it). -/
structure MerchantPaymentMethod where
  id : Nat
  store : Nat
  provider : String
  display_name : String
  mode : String
  is_active : Bool
  is_default : Bool
  credentials : List (String × String)
deriving DecidableEq, Repr

/-- `super().save()` on a payment method: update the row with this primary key
if one exists, else insert the new row at the end. -/
def pmBaseSave (db : List MerchantPaymentMethod) (pm : MerchantPaymentMethod) :
    List MerchantPaymentMethod :=
  if db.any (fun m => m.id == pm.id) then
    db.map (fun m => if m.id == pm.id then pm else m)
  else db ++ [pm]

/-- `MerchantPaymentMethod.save`: after the base save, when `is_default` is
set, clear `is_default` on every other method of the same store
(`filter(store=self.store).exclude(pk=self.pk).update(is_default=False)`). -/
def MerchantPaymentMethod.save (db : List MerchantPaymentMethod)
    (pm : MerchantPaymentMethod) : List MerchantPaymentMethod :=
  let db1 := pmBaseSave db pm
  if pm.is_default then
    db1.map (fun m =>
      if m.store == pm.store && m.id != pm.id then { m with is_default := false } else m)
  else db1

/-- The database: one list per table. -/
structure World where
  stores : List MerchantStore
  products : List Product
  orders : List Order
  order_items : List OrderItem
  payment_methods : List MerchantPaymentMethod
deriving DecidableEq, Repr

/-- Message levels attached to view responses (`django.contrib.messages`),
plus the 404 outcome of `get_object_or_404`. -/
inductive Msg
  | info
  | success
  | error
  | warning
  | http404
deriving DecidableEq, Repr

/-- `get_object_or_404(Store, pk=store_id)`. -/
def getStore (w : World) (store_id : Nat) : Option MerchantStore :=
  w.stores.find? (fun s => s.id == store_id)

/-- Replace the store row with the given primary key by `f` of itself. -/
def updateStore (w : World) (sid : Nat) (f : MerchantStore → MerchantStore) : World :=
  { w with stores := w.stores.map (fun s => if s.id == sid then f s else s) }

/-- `admin_store_archive`: archive when not yet archived (success message),
otherwise leave everything unchanged with an informational message. -/
def admin_store_archive (w : World) (now : Int) (store_id : Nat) : World × Msg :=
  match getStore w store_id with
  | none => (w, .http404)
  | some s =>
    if !s.is_archived then
      (updateStore w store_id (fun t => { t with is_archived := true, archived_at := some now }),
       .success)
    else (w, .info)

/-- `admin_store_restore`: clear the archive pair when archived (success),
otherwise leave everything unchanged with an informational message. -/
def admin_store_restore (w : World) (store_id : Nat) : World × Msg :=
  match getStore w store_id with
  | none => (w, .http404)
  | some s =>
    if s.is_archived then
      (updateStore w store_id (fun t => { t with is_archived := false, archived_at := none }),
       .success)
    else (w, .info)

/-- `merchant_store_archive`, after the store has been resolved: no-op with an
informational message when already archived, else stamp the archive pair. -/
def merchant_store_archive (s : MerchantStore) (now : Int) : MerchantStore × Msg :=
  if s.is_archived then (s, .info)
  else ({ s with is_archived := true, archived_at := some now }, .success)

/-- `merchant_store_restore`, after the store has been resolved: no-op with an
informational message when not archived, else clear the archive pair.  No
deadline is checked. -/
def merchant_store_restore (s : MerchantStore) : MerchantStore × Msg :=
  if !s.is_archived then (s, .info)
  else ({ s with is_archived := false, archived_at := none }, .success)

/-- Outcome of `admin_store_purge`, carrying the remaining days/hours of the
recovery window in the too-soon case; `protectedError` is the unhandled
`django.db.models.ProtectedError` escaping the view. -/
inductive PurgeResult
  | http404
  | mustArchiveFirst
  | tooSoon (days : Int) (hours : Int)
  | purged
  | protectedError
deriving DecidableEq, Repr

/-- The rows Django's delete collector removes for `store.delete()` when the
collection succeeds: the store row, its products and orders
(`on_delete=CASCADE` on their `store` FK), the order items of those orders,
and its payment methods. -/
def cascadeDelete (w : World) (sid : Nat) : World :=
  { stores := w.stores.filter (fun s => !(s.id == sid))
    products := w.products.filter (fun p => !(p.store == sid))
    orders := w.orders.filter (fun o => !(o.store == sid))
    order_items := w.order_items.filter
      (fun it => !(w.orders.any (fun o => o.id == it.order && o.store == sid)))
    payment_methods := w.payment_methods.filter (fun m => !(m.store == sid)) }

/-- `store.delete()`: the collector gathers the store, its products and orders
(CASCADE), those orders' items and its payment methods — but
`OrderItem.product` is `on_delete=PROTECT`, so if any order item row
references a product of the store (even an item that is itself being
collected through its order, unlike the laxer RESTRICT), the whole delete
raises `ProtectedError` and removes nothing.  `none` models the raise. -/
def storeDelete (w : World) (sid : Nat) : Option World :=
  if w.order_items.any (fun it =>
      w.products.any (fun p => p.id == it.product && p.store == sid)) then
    none
  else some (cascadeDelete w sid)

/-- `admin_store_purge`: 404 on unknown id; error unless archived with a
non-null `archived_at`; when `now - archived_at < 604800` report the
remaining `days`/`hours` (floor divisions of `604800 - delta`) and delete
nothing; otherwise call `store.delete()`, which either cascades or raises
`ProtectedError` out of the view. -/
def admin_store_purge (w : World) (now : Int) (store_id : Nat) : World × PurgeResult :=
  match getStore w store_id with
  | none => (w, .http404)
  | some s =>
    if !s.is_archived || s.archived_at.isNone then (w, .mustArchiveFirst)
    else
      let t := s.archived_at.getD 0
      let delta := now - t
      if delta < sevenDays then
        let remaining := sevenDays - delta
        (w, .tooSoon (remaining / 86400) ((remaining % 86400) / 3600))
      else
        match storeDelete w store_id with
        | none => (w, .protectedError)
        | some w2 => (w2, .purged)

/-- ASCII lowercasing of one character, as Python's `str.lower` acts on the
provider identifiers used here (all ASCII). -/
def lowerChar (c : Char) : Char :=
  if 'A' ≤ c ∧ c ≤ 'Z' then Char.ofNat (c.toNat + 32) else c

/-- Python `str.lower()` on a provider identifier. -/
def lowerString (s : String) : String := ⟨s.data.map lowerChar⟩

/-- `payments/adapters.py` `StripeAdapterImpl` dataclass (all fields default
to `None`). -/
structure StripeAdapterImpl where
  api_key : Option String
  success_url : Option String
  cancel_url : Option String
deriving DecidableEq, Repr

/-- `payments/adapters.py` `PayPalAdapterImpl` dataclass. -/
structure PayPalAdapterImpl where
  client_id : Option String
  client_secret : Option String
  success_url : Option String
  cancel_url : Option String
deriving DecidableEq, Repr

/-- The closed set of adapter values `build_adapter` can produce. -/
inductive PaymentAdapter
  | stripeImpl (a : StripeAdapterImpl)
  | paypalImpl (a : PayPalAdapterImpl)
deriving DecidableEq, Repr

/-- `credentials.get(key)` on the JSON credential blob. -/
def credGet (credentials : List (String × String)) (k : String) : Option String :=
  (credentials.find? (fun kv => kv.fst == k)).map (fun kv => kv.snd)

/-- `build_adapter`: lowercase the provider (treating `None` as `""`); exact
matches `"stripe"` / `"paypal"` build the corresponding adapter from the
credential blob; anything else silently gets a Stripe stub with no
credentials. -/
def build_adapter (provider : Option String) (credentials : List (String × String))
    (success_url : String) (cancel_url : String) : PaymentAdapter :=
  let prov := lowerString (provider.getD "")
  if prov = "stripe" then
    .stripeImpl
      { api_key := credGet credentials "api_key"
        success_url := some success_url
        cancel_url := some cancel_url }
  else if prov = "paypal" then
    .paypalImpl
      { client_id := credGet credentials "client_id"
        client_secret := credGet credentials "client_secret"
        success_url := some success_url
        cancel_url := some cancel_url }
  else
    .stripeImpl
      { api_key := none
        success_url := some success_url
        cancel_url := some cancel_url }

/-- `self.success_url or '/merchant/checkout/success/'` (Python `or`: `None`
and the empty string both fall back). -/
def orDefaultUrl (u : Option String) : String :=
  match u with
  | some s => if s = "" then "/merchant/checkout/success/" else s
  | none => "/merchant/checkout/success/"

/-- `start_checkout` of either stub adapter: synthesize a deterministic fake
session id from the metadata's `order_id` and return
`(redirect_url, session_id)`. -/
def PaymentAdapter.start_checkout (a : PaymentAdapter) (order_id : String) :
    String × String :=
  match a with
  | .stripeImpl s =>
    let session_id := "cs_test_" ++ order_id
    (orDefaultUrl s.success_url ++ "?session_id=" ++ session_id ++ "&gateway=stripe",
     session_id)
  | .paypalImpl p =>
    let session_id := "pp_sess_" ++ order_id
    (orDefaultUrl p.success_url ++ "?session_id=" ++ session_id ++ "&gateway=paypal",
     session_id)

/-- Outcome of `checkout_start`. -/
inductive CheckoutResult
  | createStoreFirst
  | noActiveMethod
  | redirected (redirect_url : String)
deriving DecidableEq, Repr

/-- The selection used by `checkout_start` and the no-provider branch of
`plan_checkout`:
`filter(is_active=True, is_default=True).first() or filter(is_active=True).first()`.
The argument list carries the store's methods in the queryset's stable
order. -/
def selectMethod (methods : List MerchantPaymentMethod) :
    Option MerchantPaymentMethod :=
  (methods.find? (fun m => m.is_active && m.is_default)).orElse
    (fun _ => methods.find? (fun m => m.is_active))

/-- `store.payment_methods` related manager: the store's rows. -/
def storeMethods (methods : List MerchantPaymentMethod) (sid : Nat) :
    List MerchantPaymentMethod :=
  methods.filter (fun m => m.store == sid)

/-- `checkout_start`, after `get_current_store`: with no store, redirect to
the profile page; with no selectable method, error out before any adapter
is built; otherwise build the provider's adapter and redirect to the URL
its `start_checkout` returns. -/
def checkout_start (store : Option MerchantStore)
    (methods : List MerchantPaymentMethod)
    (success_url cancel_url : String) : CheckoutResult :=
  match store with
  | none => .createStoreFirst
  | some st =>
    match selectMethod (storeMethods methods st.id) with
    | none => .noActiveMethod
    | some pm =>
      let adapter := build_adapter (some pm.provider) pm.credentials success_url cancel_url
      let result := adapter.start_checkout "demo"
      .redirected result.fst

/-- The request data `get_current_store` reads: the authenticated flag and
user, the raw `?store=` parameter (absent or empty `none`; present but
non-integer `some none`; parsing to `k` `some (some k)`), and the session's
`active_store_id`. -/
structure Request where
  authenticated : Bool
  user : Nat
  store_param : Option (Option Int)
  session_store : Option Int
deriving DecidableEq, Repr

/-- `Store.objects.filter(owner=request.user, is_archived=False)`. -/
def ownedActiveStores (stores : List MerchantStore) (user : Nat) :
    List MerchantStore :=
  stores.filter (fun s => s.owner == user && !s.is_archived)

/-- `qs.order_by("created_at").first()`: the first store with the least
`created_at` (a stable choice among equal timestamps). -/
def firstByCreated : List MerchantStore → Option MerchantStore
  | [] => none
  | s :: rest =>
    match firstByCreated rest with
    | none => some s
    | some t => if t.created_at < s.created_at then some t else some s

/-- `qs.get(pk=k)` (the order does not matter for a primary-key lookup). -/
def qsGet (qs : List MerchantStore) (k : Int) : Option MerchantStore :=
  qs.find? (fun s => ((s.id : Int) == k))

/-- The final fallback of `get_current_store`: `qs.first()`, persisting the
resolved id when a store is found. -/
def gcsFallback (qs : List MerchantStore) (sess : Option Int) :
    Option MerchantStore × Option Int :=
  match firstByCreated qs with
  | some st => (some st, some (st.id : Int))
  | none => (none, sess)

/-- The session step of `get_current_store`: a truthy session id that still
names a store in `qs` is returned as-is; a stale truthy id is popped before
falling back; a falsy (`0`/absent) session skips straight to the fallback. -/
def gcsSession (qs : List MerchantStore) (sess : Option Int) :
    Option MerchantStore × Option Int :=
  match sess with
  | some sid =>
    if sid ≠ 0 then
      match qsGet qs sid with
      | some st => (some st, sess)
      | none => gcsFallback qs none
    else gcsFallback qs sess
  | none => gcsFallback qs sess

/-- `get_current_store`: anonymous requests resolve to nothing; otherwise try
the `?store=` override (persisting it on success), then the session id,
then the earliest-created owned non-archived store.  Returns the resolved
store together with the session value after the call. -/
def get_current_store (stores : List MerchantStore) (req : Request) :
    Option MerchantStore × Option Int :=
  if !req.authenticated then (none, req.session_store)
  else
    let qs := ownedActiveStores stores req.user
    match req.store_param with
    | some (some k) =>
      match qsGet qs k with
      | some st => (some st, some (st.id : Int))
      | none => gcsSession qs req.session_store
    | some none => gcsSession qs req.session_store
    | none => gcsSession qs req.session_store

/-- `date()` of an epoch timestamp in seconds, as a day ordinal (a fixed
timezone; Lean's `Int` division floors, exactly like calendar days do). -/
def dateOf (t : Int) : Int := t / 86400

/-- `days = days if days in (7, 30, 90) else 7`. -/
def clampDays (requested : Int) : Nat :=
  if requested = 7 ∨ requested = 30 ∨ requested = 90 then requested.toNat else 7

/-- `int(request.GET.get("range", "7"))` with `ValueError` falling back to 7,
then the clamp.  `none` models an absent/empty parameter, `some none` a
non-integer one. -/
def parseRangeDays (raw : Option (Option Int)) : Nat :=
  match raw with
  | none => clampDays 7
  | some none => clampDays 7
  | some (some n) => clampDays n

/-- `since = timezone.now() - timedelta(days=days)`. -/
def reportSince (now : Int) (days : Nat) : Int := now - (days : Int) * 86400

/-- `store.orders.filter(created_at__gte=since)`. -/
def storeWindowOrders (orders : List Order) (sid : Nat) (now : Int) (days : Nat) :
    List Order :=
  orders.filter (fun o => o.store == sid && decide (reportSince now days ≤ o.created_at))

/-- The date key of series slot `i`:
`(timezone.now() - timedelta(days=days - 1 - i)).date()`. -/
def seriesKey (now : Int) (days : Nat) (i : Nat) : Int :=
  dateOf (now - ((days - 1 - i : Nat) : Int) * 86400)

/-- The per-day order-count series of the `reports` view: one entry per slot
`i in range(days)`, holding the bucketed count of window orders whose local
date equals that slot's key (absent bucket keys read as 0). -/
def orders_series (orders : List Order) (sid : Nat) (now : Int) (days : Nat) :
    List Nat :=
  (List.range days).map (fun i =>
    ((storeWindowOrders orders sid now days).filter
      (fun o => dateOf o.created_at == seriesKey now days i)).length)

/-- `total_orders = orders_qs.count()` in the `reports` view. -/
def total_orders (orders : List Order) (sid : Nat) (now : Int) (days : Nat) : Nat :=
  (storeWindowOrders orders sid now days).length

/-- Outcome of `edit_product`. -/
inductive EditResult
  | invalidPrice
  | missingName
  | updated
deriving DecidableEq, Repr

/-- `edit_product` (POST), after the store/product have been resolved: a
present-but-invalid price re-renders with an error, an empty name likewise;
otherwise the product row is updated in place (empty description keeps the
old one, absent price keeps the old one).  Only the products table is
touched. -/
def edit_product (w : World) (product_id : Nat) (name : String)
    (description : String) (price_input : Option (Option Int)) : World × EditResult :=
  match price_input with
  | some none => (w, .invalidPrice)
  | _ =>
    if name = "" then (w, .missingName)
    else
      let price_val : Option Int :=
        match price_input with
        | some (some v) => some v
        | _ => none
      ({ w with products := w.products.map (fun p =>
          if p.id == product_id then
            { p with
                name := name
                description := if description = "" then p.description else description
                price := match price_val with | some v => v | none => p.price }
          else p) },
       .updated)

/-- `OrderItem(order=..., product=..., quantity=...)` followed by `.save()`:
the unset `name` (CharField default `""`) and `unit_price` (null) are
snapshotted from the product; the saved row is appended to the table. -/
def createOrderItem (products : List Product) (items : List OrderItem)
    (itemId orderId productId qty : Nat) : Option (List OrderItem × OrderItem) :=
  match OrderItem.save products
    { id := itemId, order := orderId, product := productId,
      name := "", quantity := qty, unit_price := none } with
  | none => none
  | some it => some (items ++ [it], it)

/-- `MerchantStore.objects.create(owner=..., ...)`: a fresh store starts
active with no archive timestamp. -/
def createStore (id owner : Nat) (nm : String) (created : Int) : MerchantStore :=
  { id := id, owner := owner, store_name := nm, plan := "starter",
    created_at := created, is_archived := false, archived_at := none }

/-- The store-lifecycle operations of the repository that touch the archive
pair: the model helpers `archive`/`restore` and the (conditional) view
bodies of `merchant_store_archive`/`merchant_store_restore`, whose field
updates are also exactly those of `admin_store_archive`/
`admin_store_restore`. -/
inductive LifecycleOp
  | modelArchive (now : Int)
  | modelRestore
  | viewArchive (now : Int)
  | viewRestore
deriving DecidableEq, Repr

/-- Run one lifecycle operation on a store. -/
def applyLifecycleOp (s : MerchantStore) : LifecycleOp → MerchantStore
  | .modelArchive now => s.archive now
  | .modelRestore => s.restore
  | .viewArchive now => (merchant_store_archive s now).fst
  | .viewRestore => (merchant_store_restore s).fst

/-- The spec's invariant: `is_archived` is true iff `archived_at` is set. -/
def archiveConsistent (s : MerchantStore) : Prop :=
  s.is_archived = true ↔ s.archived_at ≠ none

/-- The invariant over every store row of the database. -/
def worldArchiveConsistent (w : World) : Prop :=
  ∀ s ∈ w.stores, archiveConsistent s

/-- Concrete data used to instantiate the theorems below. -/
def sampleArchivedStore : MerchantStore :=
  { id := 1, owner := 2, store_name := "Shop", plan := "starter",
    created_at := 0, is_archived := true, archived_at := some 10 }

/-- A concrete database whose single store is archived and has one product,
one order with one item, and one payment method. -/
def sampleWorld : World :=
  { stores := [sampleArchivedStore]
    products := [{ id := 5, store := 1, name := "Tee", price := 2500, description := "d" }]
    orders := [{ id := 7, store := 1, status := "paid", subtotal := 2500, total := 2500,
                 created_at := 50 }]
    order_items := [{ id := 9, order := 7, product := 5, name := "Tee", quantity := 2,
                      unit_price := some 2500 }]
    payment_methods := [{ id := 3, store := 1, provider := "stripe", display_name := "",
                          mode := "test", is_active := true, is_default := true,
                          credentials := [] }] }

/-- Like `sampleWorld`, but the only order item references a product of
another store (id 6, store 2), so store 1's own product is unreferenced and
`store.delete()` is not blocked by `PROTECT`. -/
def sampleWorldNoRefs : World :=
  { stores := [sampleArchivedStore]
    products := [{ id := 5, store := 1, name := "Tee", price := 2500, description := "d" },
                 { id := 6, store := 2, name := "Mug", price := 1200, description := "e" }]
    orders := [{ id := 7, store := 1, status := "paid", subtotal := 2400, total := 2400,
                 created_at := 50 }]
    order_items := [{ id := 9, order := 7, product := 6, name := "Mug", quantity := 2,
                      unit_price := some 1200 }]
    payment_methods := [{ id := 3, store := 1, provider := "stripe", display_name := "",
                          mode := "test", is_active := true, is_default := true,
                          credentials := [] }] }

/-- Two active stores of the same owner; `B` was created before `A`. -/
def sampleStoreA : MerchantStore :=
  { id := 1, owner := 10, store_name := "A", plan := "starter",
    created_at := 5, is_archived := false, archived_at := none }

/-- See `sampleStoreA`. -/
def sampleStoreB : MerchantStore :=
  { id := 2, owner := 10, store_name := "B", plan := "starter",
    created_at := 3, is_archived := false, archived_at := none }

/-- The order-item row produced by creating an item with the model field
defaults against product `p`: both snapshot fields filled from `p`. -/
def snapshotItem (itemId orderId qty : Nat) (p : Product) : OrderItem :=
  { id := itemId, order := orderId, product := p.id, name := p.name,
    quantity := qty, unit_price := some p.price }

/-- The single product row of `sampleWorld`. -/
def sampleProductTee : Product :=
  { id := 5, store := 1, name := "Tee", price := 2500, description := "d" }

/-- A default Stripe payment method of store 1. -/
def samplePmA : MerchantPaymentMethod :=
  { id := 1, store := 1, provider := "stripe", display_name := "", mode := "test",
    is_active := true, is_default := true, credentials := [] }

/-- A second payment method of store 1, also marked default. -/
def samplePmB : MerchantPaymentMethod :=
  { id := 2, store := 1, provider := "paypal", display_name := "", mode := "test",
    is_active := true, is_default := true, credentials := [] }

/-- Members of an updated store table come from the original table, either
untouched or passed through the update. -/
theorem updateStore_mem {w : World} {sid : Nat} {f : MerchantStore → MerchantStore}
    {s2 : MerchantStore} (h : s2 ∈ (updateStore w sid f).stores) :
    ∃ t ∈ w.stores, s2 = if (t.id == sid) = true then f t else t := by
  simp only [updateStore] at h
  rcases List.mem_map.mp h with ⟨t, ht, hrw⟩
  exact ⟨t, ht, hrw.symm⟩

/-- One lifecycle operation preserves the archive invariant. -/
theorem applyLifecycleOp_consistent (s : MerchantStore) (op : LifecycleOp)
    (h : archiveConsistent s) : archiveConsistent (applyLifecycleOp s op) := by
  cases op with
  | modelArchive now =>
    simp [applyLifecycleOp, MerchantStore.archive, archiveConsistent]
  | modelRestore =>
    simp [applyLifecycleOp, MerchantStore.restore, archiveConsistent]
  | viewArchive now =>
    by_cases hb : s.is_archived = true
    · simpa [applyLifecycleOp, merchant_store_archive, hb] using h
    · simp [applyLifecycleOp, merchant_store_archive, hb, archiveConsistent]
  | viewRestore =>
    by_cases hb : s.is_archived = true
    · simp [applyLifecycleOp, merchant_store_restore, hb, archiveConsistent]
    · simpa [applyLifecycleOp, merchant_store_restore, hb] using h

/-- A whole trace of lifecycle operations preserves the archive invariant. -/
theorem foldl_lifecycle_consistent (ops : List LifecycleOp) :
    ∀ s : MerchantStore, archiveConsistent s →
      archiveConsistent (ops.foldl applyLifecycleOp s) := by
  induction ops with
  | nil => intro s h; exact h
  | cons op rest ih => intro s h; exact ih _ (applyLifecycleOp_consistent s op h)

/-- Claim C4: for every store and after every lifecycle operation (create,
archive, restore — both the model helpers and the merchant/admin views),
`is_archived` is true if and only if `archived_at` is non-null. -/
theorem c4_archive_flag_iff_timestamp :
    (∀ (ops : List LifecycleOp) (id owner : Nat) (nm : String) (created : Int),
        archiveConsistent (ops.foldl applyLifecycleOp (createStore id owner nm created)))
  ∧ (∀ (w : World) (now : Int) (sid : Nat), worldArchiveConsistent w →
        worldArchiveConsistent (admin_store_archive w now sid).fst)
  ∧ (∀ (w : World) (sid : Nat), worldArchiveConsistent w →
        worldArchiveConsistent (admin_store_restore w sid).fst) := by
  refine ⟨?_, ?_, ?_⟩
  · intro ops id owner nm created
    exact foldl_lifecycle_consistent ops _ (by simp [createStore, archiveConsistent])
  · intro w now sid hw
    rcases hg : getStore w sid with _ | s
    · simpa [admin_store_archive, hg] using hw
    · by_cases hb : s.is_archived = true
      · simpa [admin_store_archive, hg, hb] using hw
      · intro s2 hs2
        have hs2m : s2 ∈ (updateStore w sid
            (fun t => { t with is_archived := true, archived_at := some now })).stores := by
          simpa [admin_store_archive, hg, hb] using hs2
        rcases updateStore_mem hs2m with ⟨t, ht, rfl⟩
        by_cases hid : (t.id == sid) = true
        · simp [hid, archiveConsistent]
        · simpa [hid] using hw t ht
  · intro w sid hw
    rcases hg : getStore w sid with _ | s
    · simpa [admin_store_restore, hg] using hw
    · by_cases hb : s.is_archived = true
      · intro s2 hs2
        have hs2m : s2 ∈ (updateStore w sid
            (fun t => { t with is_archived := false, archived_at := none })).stores := by
          simpa [admin_store_restore, hg, hb] using hs2
        rcases updateStore_mem hs2m with ⟨t, ht, rfl⟩
        by_cases hid : (t.id == sid) = true
        · simp [hid, archiveConsistent]
        · simpa [hid] using hw t ht
      · simpa [admin_store_restore, hg, hb] using hw

/-- Witness for C4 at concrete inputs. -/
theorem c4_witness :
    archiveConsistent
      ([LifecycleOp.modelArchive 5, LifecycleOp.viewRestore, LifecycleOp.viewArchive 8].foldl
        applyLifecycleOp (createStore 1 2 "Shop" 0))
  ∧ worldArchiveConsistent (admin_store_archive sampleWorld 99 1).fst
  ∧ worldArchiveConsistent (admin_store_restore sampleWorld 1).fst := by
  have hcons : worldArchiveConsistent sampleWorld := by
    intro s hs
    simp only [sampleWorld, List.mem_singleton] at hs
    subst hs
    simp [archiveConsistent, sampleArchivedStore]
  refine ⟨c4_archive_flag_iff_timestamp.1 _ 1 2 "Shop" 0, ?_, ?_⟩
  · exact c4_archive_flag_iff_timestamp.2.1 sampleWorld 99 1 hcons
  · exact c4_archive_flag_iff_timestamp.2.2 sampleWorld 1 hcons

/-- Claim C7: archiving an already-archived store is idempotent — the store
(and, for the admin view, the whole database) is unchanged, no error is
raised, and the message is informational. -/
theorem c7_archive_idempotent (s : MerchantStore) (now : Int)
    (h : s.is_archived = true) :
    merchant_store_archive s now = (s, Msg.info)
  ∧ ∀ w : World, getStore w s.id = some s →
      admin_store_archive w now s.id = (w, Msg.info) := by
  constructor
  · simp [merchant_store_archive, h]
  · intro w hw
    simp [admin_store_archive, hw, h]

/-- Witness for C7 at concrete inputs. -/
theorem c7_witness :
    merchant_store_archive sampleArchivedStore 99 = (sampleArchivedStore, Msg.info)
  ∧ admin_store_archive sampleWorld 99 1 = (sampleWorld, Msg.info) := by
  have h := c7_archive_idempotent sampleArchivedStore 99 rfl
  exact ⟨h.1, h.2 sampleWorld (by decide)⟩

/-- Claim C9: `restore` clears both archive fields for every archived store
regardless of elapsed time (the views gate only on `is_archived`), while
the advisory `can_restore` is true exactly when the store is archived with
a timestamp and `now` is at most `archived_at + 7 days`. -/
theorem c9_restore_unconditional (s : MerchantStore) (now : Int) :
    ((MerchantStore.restore s).is_archived = false
      ∧ (MerchantStore.restore s).archived_at = none)
  ∧ (s.is_archived = true →
      merchant_store_restore s = (MerchantStore.restore s, Msg.success))
  ∧ (MerchantStore.can_restore s now = true ↔
      s.is_archived = true ∧ ∃ t, s.archived_at = some t ∧ now ≤ t + sevenDays)
  ∧ (∀ w : World, getStore w s.id = some s → s.is_archived = true →
      (admin_store_restore w s.id).snd = Msg.success
      ∧ ∀ s2 ∈ (admin_store_restore w s.id).fst.stores,
          s2.id = s.id → s2.is_archived = false ∧ s2.archived_at = none) := by
  refine ⟨⟨rfl, rfl⟩, ?_, ?_, ?_⟩
  · intro h
    simp [merchant_store_restore, MerchantStore.restore, h]
  · unfold MerchantStore.can_restore
    rcases hat : s.archived_at with _ | t
    · simp [hat]
    · cases hb : s.is_archived <;> simp [hb, hat]
  · intro w hw h
    constructor
    · simp [admin_store_restore, hw, h]
    · intro s2 hs2 hid
      have hs2m : s2 ∈ (updateStore w s.id
          (fun t => { t with is_archived := false, archived_at := none })).stores := by
        simpa [admin_store_restore, hw, h] using hs2
      rcases updateStore_mem hs2m with ⟨t, ht, hval⟩
      subst hval
      by_cases hbe : (t.id == s.id) = true
      · simp [hbe]
      · rw [if_neg hbe] at hid ⊢
        exact absurd hid (by simpa using hbe)

/-- Witness for C9 at concrete inputs (the restore runs 100 days after the
archive timestamp, far past the 7-day advisory deadline). -/
theorem c9_witness :
    merchant_store_restore sampleArchivedStore
      = (MerchantStore.restore sampleArchivedStore, Msg.success)
  ∧ MerchantStore.can_restore sampleArchivedStore 604810 = true
  ∧ MerchantStore.can_restore sampleArchivedStore 8640010 = false
  ∧ (admin_store_restore sampleWorld 1).snd = Msg.success := by
  refine ⟨(c9_restore_unconditional sampleArchivedStore 0).2.1 rfl, ?_, by decide, ?_⟩
  · exact ((c9_restore_unconditional sampleArchivedStore 604810).2.2.1).mpr
      ⟨rfl, 10, rfl, by decide⟩
  · exact ((c9_restore_unconditional sampleArchivedStore 0).2.2.2 sampleWorld
      (by decide) rfl).1

/-- Claim C10: `build_adapter` is total over provider identifiers; `None` and
every string other than case-insensitive `"stripe"`/`"paypal"` (including
`""` and `"card"`) silently receive the Stripe stub with no credentials,
while the two recognized names are matched case-insensitively. -/
theorem c10_build_adapter_fallback (credentials : List (String × String))
    (su cu : String) :
    (build_adapter none credentials su cu
      = PaymentAdapter.stripeImpl
          { api_key := none, success_url := some su, cancel_url := some cu })
  ∧ (∀ p : String, lowerString p ≠ "stripe" → lowerString p ≠ "paypal" →
      build_adapter (some p) credentials su cu
        = PaymentAdapter.stripeImpl
            { api_key := none, success_url := some su, cancel_url := some cu })
  ∧ (build_adapter (some "STRIPE") credentials su cu
      = PaymentAdapter.stripeImpl
          { api_key := credGet credentials "api_key",
            success_url := some su, cancel_url := some cu })
  ∧ (build_adapter (some "PayPal") credentials su cu
      = PaymentAdapter.paypalImpl
          { client_id := credGet credentials "client_id",
            client_secret := credGet credentials "client_secret",
            success_url := some su, cancel_url := some cu }) := by
  have h0 : lowerString "" = "" := by decide
  have hs : lowerString "STRIPE" = "stripe" := by decide
  have hp : lowerString "PayPal" = "paypal" := by decide
  refine ⟨?_, ?_, ?_, ?_⟩
  · simp [build_adapter, h0]
  · intro p h1 h2
    simp [build_adapter, h1, h2]
  · simp [build_adapter, hs]
  · simp [build_adapter, hp]

/-- Witness for C10: the unknown `"card"` provider receives the bare Stripe
stub even when credentials are present. -/
theorem c10_witness :
    build_adapter (some "card") [("api_key", "k")] "S" "C"
      = PaymentAdapter.stripeImpl
          { api_key := none, success_url := some "S", cancel_url := some "C" } :=
  (c10_build_adapter_fallback [("api_key", "k")] "S" "C").2.1 "card"
    (by decide) (by decide)

/-- Claim C1 (amended): purge attempted strictly before `archived_at + 7 days`
leaves the database unchanged and reports a non-negative remaining duration
in days and hours.  At or after the deadline (on an archived store), when
no order item references any product of the store, it deletes the store and
cascade-deletes its products, orders, order items and payment methods; when
some order item does, `OrderItem.product`'s `on_delete=PROTECT` makes
`store.delete()` raise `ProtectedError` and nothing is deleted (the
original claim's unconditional deletion is refuted by
`c1_purge_counterexample`). -/
theorem c1_purge_seven_day_window (w : World) (now : Int) (s : MerchantStore)
    (t : Int)
    (hs : getStore w s.id = some s)
    (ha : s.is_archived = true)
    (ht : s.archived_at = some t) :
    (now - t < sevenDays →
      admin_store_purge w now s.id
        = (w, PurgeResult.tooSoon ((sevenDays - (now - t)) / 86400)
              (((sevenDays - (now - t)) % 86400) / 3600))
      ∧ 0 ≤ (sevenDays - (now - t)) / 86400
      ∧ 0 ≤ ((sevenDays - (now - t)) % 86400) / 3600)
  ∧ (sevenDays ≤ now - t →
      ((∀ it ∈ w.order_items, ∀ p ∈ w.products, p.id = it.product →
          p.store ≠ s.id) →
        (admin_store_purge w now s.id).snd = PurgeResult.purged
        ∧ (∀ s2 ∈ (admin_store_purge w now s.id).fst.stores, s2.id ≠ s.id)
        ∧ (∀ p ∈ (admin_store_purge w now s.id).fst.products, p.store ≠ s.id)
        ∧ (∀ o ∈ (admin_store_purge w now s.id).fst.orders, o.store ≠ s.id)
        ∧ (∀ it ∈ (admin_store_purge w now s.id).fst.order_items,
             ∀ o ∈ w.orders, o.id = it.order → o.store ≠ s.id)
        ∧ (∀ m ∈ (admin_store_purge w now s.id).fst.payment_methods,
             m.store ≠ s.id))
      ∧ ((∃ it ∈ w.order_items, ∃ p ∈ w.products,
            p.id = it.product ∧ p.store = s.id) →
          admin_store_purge w now s.id = (w, PurgeResult.protectedError))) := by
  have hstep : admin_store_purge w now s.id =
      (if now - t < sevenDays then
        (w, PurgeResult.tooSoon ((sevenDays - (now - t)) / 86400)
            (((sevenDays - (now - t)) % 86400) / 3600))
      else
        match storeDelete w s.id with
        | none => (w, PurgeResult.protectedError)
        | some w2 => (w2, PurgeResult.purged)) := by
    simp [admin_store_purge, hs, ha, ht]
  constructor
  · intro hlt
    refine ⟨by rw [hstep, if_pos hlt], ?_, ?_⟩
    · simp only [sevenDays] at hlt ⊢
      omega
    · simp only [sevenDays] at hlt ⊢
      omega
  · intro hge
    constructor
    · intro hnoref
      have hc : (w.order_items.any (fun it =>
          w.products.any (fun p => p.id == it.product && p.store == s.id))) = false := by
        rw [List.any_eq_false]
        intro it hit
        rw [Bool.not_eq_true, List.any_eq_false]
        intro p hp
        simp only [Bool.and_eq_true, beq_iff_eq, not_and]
        intro h1
        exact hnoref it hit p hp h1
      have hdel : storeDelete w s.id = some (cascadeDelete w s.id) := by
        simp [storeDelete, hc]
      have hres : admin_store_purge w now s.id
          = (cascadeDelete w s.id, PurgeResult.purged) := by
        rw [hstep, if_neg (by omega), hdel]
      refine ⟨by rw [hres], ?_, ?_, ?_, ?_, ?_⟩
      · intro s2 hs2
        rw [hres] at hs2
        simp only [cascadeDelete, List.mem_filter, Bool.not_eq_eq_eq_not, Bool.not_true,
          beq_eq_false_iff_ne] at hs2
        exact hs2.2
      · intro p hp
        rw [hres] at hp
        simp only [cascadeDelete, List.mem_filter, Bool.not_eq_eq_eq_not, Bool.not_true,
          beq_eq_false_iff_ne] at hp
        exact hp.2
      · intro o ho
        rw [hres] at ho
        simp only [cascadeDelete, List.mem_filter, Bool.not_eq_eq_eq_not, Bool.not_true,
          beq_eq_false_iff_ne] at ho
        exact ho.2
      · intro it hit o ho hoid hstore
        rw [hres] at hit
        simp only [cascadeDelete, List.mem_filter, Bool.not_eq_eq_eq_not, Bool.not_true,
          List.any_eq_false, Bool.and_eq_true, beq_iff_eq, not_and] at hit
        exact hit.2 o ho hoid hstore
      · intro m hm
        rw [hres] at hm
        simp only [cascadeDelete, List.mem_filter, Bool.not_eq_eq_eq_not, Bool.not_true,
          beq_eq_false_iff_ne] at hm
        exact hm.2
    · intro href
      have hc : (w.order_items.any (fun it =>
          w.products.any (fun p => p.id == it.product && p.store == s.id))) = true := by
        rcases href with ⟨it, hit, p, hp, h1, h2⟩
        rw [List.any_eq_true]
        refine ⟨it, hit, ?_⟩
        rw [List.any_eq_true]
        exact ⟨p, hp, by simp [h1, h2]⟩
      have hdel : storeDelete w s.id = none := by
        simp [storeDelete, hc]
      rw [hstep, if_neg (by omega), hdel]

/-- Counterexample to C1 as stated: `sampleWorld`'s order item references a
product of the store, so at `archived_at + 7 days` the purge raises
`ProtectedError` — the database is unchanged and the store still exists —
instead of deleting the store and its dependents. -/
theorem c1_purge_counterexample :
    admin_store_purge sampleWorld 604810 1 = (sampleWorld, PurgeResult.protectedError)
  ∧ sampleArchivedStore ∈ (admin_store_purge sampleWorld 604810 1).fst.stores := by
  decide

/-- Witness for C1: four seconds after archiving the purge is refused with six
days and 23 hours remaining; at `archived_at + 7 days` it deletes when no
order item references a store product (`sampleWorldNoRefs`), and raises
`ProtectedError` when one does (`sampleWorld`). -/
theorem c1_witness :
    (admin_store_purge sampleWorld 14 sampleArchivedStore.id).snd
      = PurgeResult.tooSoon 6 23
  ∧ (admin_store_purge sampleWorldNoRefs 604810 sampleArchivedStore.id).snd
      = PurgeResult.purged
  ∧ admin_store_purge sampleWorld 604810 sampleArchivedStore.id
      = (sampleWorld, PurgeResult.protectedError) := by
  have h1 := (c1_purge_seven_day_window sampleWorld 14 sampleArchivedStore 10
    (by decide) rfl rfl).1 (by decide)
  have h2 := ((c1_purge_seven_day_window sampleWorldNoRefs 604810 sampleArchivedStore 10
    (by decide) rfl rfl).2 (by decide)).1 (by decide)
  have h3 := ((c1_purge_seven_day_window sampleWorld 604810 sampleArchivedStore 10
    (by decide) rfl rfl).2 (by decide)).2 (by decide)
  exact ⟨by rw [h1.1]; decide, h2.1, h3⟩

/-- In a table with pairwise-distinct primary keys, the rows with a given
present key are counted exactly once. -/
theorem countP_id_eq_one {l : List MerchantPaymentMethod} {k : Nat}
    (hnodup : (l.map (fun m => m.id)).Nodup)
    (hmem : ∃ m ∈ l, m.id = k) :
    l.countP (fun m => m.id == k) = 1 := by
  induction l with
  | nil => simp at hmem
  | cons x xs ih =>
    simp only [List.map_cons, List.nodup_cons] at hnodup
    rcases hmem with ⟨m, hm, hmk⟩
    rcases List.mem_cons.mp hm with rfl | hmxs
    · have hpos : (m.id == k) = true := by simp [hmk]
      rw [List.countP_cons, hpos]
      have hzero : xs.countP (fun m2 => m2.id == k) = 0 := by
        rw [List.countP_eq_zero]
        intro a ha
        simp only [beq_iff_eq]
        intro hak
        exact hnodup.1 (hmk ▸ hak ▸ List.mem_map_of_mem (fun m2 => m2.id) ha)
      simp [hzero]
    · have hxk : (x.id == k) = false := by
        simp only [beq_eq_false_iff_ne, ne_eq]
        intro hxy
        exact hnodup.1 (hxy ▸ hmk ▸ List.mem_map_of_mem (fun m2 => m2.id) hmxs)
      rw [List.countP_cons, hxk]
      simpa using ih hnodup.2 ⟨m, hmxs, hmk⟩

/-- After the base save, the only row carrying the saved method's primary key
is the saved method itself. -/
theorem pmBaseSave_id_unique {db : List MerchantPaymentMethod}
    {pm m : MerchantPaymentMethod}
    (hm : m ∈ pmBaseSave db pm) (hid : m.id = pm.id) : m = pm := by
  unfold pmBaseSave at hm
  by_cases hany : (db.any (fun x => x.id == pm.id)) = true
  · rw [if_pos hany] at hm
    rcases List.mem_map.mp hm with ⟨t, ht, hrw⟩
    by_cases hbe : (t.id == pm.id) = true
    · rw [← hrw, if_pos hbe]
    · rw [← hrw, if_neg hbe] at hid ⊢
      exact absurd hid (by simpa using hbe)
  · rw [if_neg hany] at hm
    rcases List.mem_append.mp hm with hmdb | hmpm
    · exfalso
      have := List.any_eq_false.mp (Bool.not_eq_true _ ▸ hany) m hmdb
      simp only [beq_iff_eq] at this
      exact this hid
    · simpa using hmpm

/-- After the base save, the saved method's primary key occurs exactly once. -/
theorem pmBaseSave_countP_id {db : List MerchantPaymentMethod}
    {pm : MerchantPaymentMethod}
    (hnodup : (db.map (fun m => m.id)).Nodup) :
    (pmBaseSave db pm).countP (fun m => m.id == pm.id) = 1 := by
  unfold pmBaseSave
  by_cases hany : (db.any (fun x => x.id == pm.id)) = true
  · rw [if_pos hany, List.countP_map]
    have hcg : ∀ x ∈ db,
        ((fun m => m.id == pm.id) ∘
          (fun m => if m.id == pm.id then pm else m)) x = true
        ↔ (fun m => m.id == pm.id) x = true := by
      intro x hx
      by_cases hbe : (x.id == pm.id) = true
      · simp [Function.comp, hbe]
      · simp [Function.comp, hbe]
    rw [List.countP_congr hcg]
    rcases List.any_eq_true.mp hany with ⟨x, hx, hxk⟩
    exact countP_id_eq_one hnodup ⟨x, hx, by simpa using hxk⟩
  · rw [if_neg hany, List.countP_append]
    have h0 : db.countP (fun m => m.id == pm.id) = 0 := by
      rw [List.countP_eq_zero]
      exact List.any_eq_false.mp (Bool.not_eq_true _ ▸ hany)
    simp [h0]

/-- Claim C2: after any save of a payment method flagged default, exactly one
method of that store is flagged default, namely the one just saved. -/
theorem c2_single_default_per_store (db : List MerchantPaymentMethod)
    (pm : MerchantPaymentMethod)
    (hdef : pm.is_default = true)
    (hnodup : (db.map (fun m => m.id)).Nodup) :
    (MerchantPaymentMethod.save db pm).countP
        (fun m => m.store == pm.store && m.is_default) = 1
  ∧ ∀ m ∈ MerchantPaymentMethod.save db pm,
      m.store = pm.store → m.is_default = true → m = pm := by
  have hsave : MerchantPaymentMethod.save db pm
      = (pmBaseSave db pm).map (fun m =>
          if m.store == pm.store && m.id != pm.id then
            { m with is_default := false } else m) := by
    simp [MerchantPaymentMethod.save, hdef]
  constructor
  · rw [hsave, List.countP_map]
    have hcg : ∀ x ∈ pmBaseSave db pm,
        ((fun m => m.store == pm.store && m.is_default) ∘ fun m =>
          if m.store == pm.store && m.id != pm.id then
            { m with is_default := false } else m) x = true
        ↔ (fun m => m.id == pm.id) x = true := by
      intro x hx
      simp only [Function.comp_apply]
      by_cases hc : (x.store == pm.store && x.id != pm.id) = true
      · rw [if_pos hc]
        rcases Bool.and_eq_true .. |>.mp hc with ⟨hcs, hcn⟩
        simp only [bne_iff_ne, ne_eq] at hcn
        simp [hcn]
      · rw [if_neg hc]
        have hc2 : x.store = pm.store → x.id = pm.id := by simpa using hc
        constructor
        · intro hlhs
          rcases Bool.and_eq_true .. |>.mp hlhs with ⟨hxs, hxd⟩
          simp only [beq_iff_eq] at hxs ⊢
          exact hc2 hxs
        · intro hxid
          simp only [beq_iff_eq] at hxid
          have hxpm := pmBaseSave_id_unique hx hxid
          subst hxpm
          simp [hdef]
    rw [List.countP_congr hcg]
    exact pmBaseSave_countP_id hnodup
  · intro m hm hstore hdefm
    rw [hsave] at hm
    rcases List.mem_map.mp hm with ⟨x, hx, hrw⟩
    by_cases hc : (x.store == pm.store && x.id != pm.id) = true
    · rw [← hrw, if_pos hc] at hdefm
      simp at hdefm
    · rw [← hrw, if_neg hc] at hstore hdefm ⊢
      simp only [Bool.and_eq_true, beq_iff_eq, bne_iff_ne, ne_eq, not_and,
        not_not] at hc
      exact pmBaseSave_id_unique hx (hc hstore)

/-- Witness for C2: saving method `B` as default while `A` of the same store
was previously default leaves exactly one default. -/
theorem c2_witness :
    (MerchantPaymentMethod.save [samplePmA] samplePmB).countP
        (fun m => m.store == samplePmB.store && m.is_default) = 1 :=
  (c2_single_default_per_store [samplePmA] samplePmB rfl (by decide)).1

/-- Claim C6: with no active payment method for the store, checkout fails
with the no-active-method result, building no adapter and no redirect; with
active methods, the one flagged default is preferred, else the first active
one in the queryset's stable order. -/
theorem c6_checkout_needs_active_method (st : MerchantStore)
    (methods : List MerchantPaymentMethod) (su cu : String) :
    ((∀ m ∈ storeMethods methods st.id, m.is_active = false) →
      selectMethod (storeMethods methods st.id) = none
      ∧ checkout_start (some st) methods su cu = CheckoutResult.noActiveMethod)
  ∧ (∀ m, selectMethod (storeMethods methods st.id) = some m →
      m ∈ storeMethods methods st.id ∧ m.is_active = true
      ∧ ((∃ d ∈ storeMethods methods st.id,
            d.is_active = true ∧ d.is_default = true) →
          m.is_default = true))
  ∧ ((∃ m ∈ storeMethods methods st.id, m.is_active = true) →
      ∃ m, selectMethod (storeMethods methods st.id) = some m
      ∧ checkout_start (some st) methods su cu
          = CheckoutResult.redirected
              ((build_adapter (some m.provider) m.credentials su cu).start_checkout
                "demo").fst) := by
  refine ⟨?_, ?_, ?_⟩
  · intro hall
    have h1 : (storeMethods methods st.id).find?
        (fun m2 => m2.is_active && m2.is_default) = none := by
      rw [List.find?_eq_none]
      intro x hx
      simp [hall x hx]
    have h2 : (storeMethods methods st.id).find? (fun m2 => m2.is_active) = none := by
      rw [List.find?_eq_none]
      intro x hx
      simp [hall x hx]
    have hsel : selectMethod (storeMethods methods st.id) = none := by
      simp [selectMethod, h1, h2, Option.orElse]
    exact ⟨hsel, by simp [checkout_start, hsel]⟩
  · intro m hm
    rcases hfd : (storeMethods methods st.id).find?
        (fun m2 => m2.is_active && m2.is_default) with _ | d
    · have hsel : selectMethod (storeMethods methods st.id)
          = (storeMethods methods st.id).find? (fun m2 => m2.is_active) := by
        simp [selectMethod, hfd, Option.orElse]
      rw [selectMethod, hfd] at hm
      simp only [Option.orElse] at hm
      have hmem := List.mem_of_find?_eq_some hm
      have hact := List.find?_some hm
      refine ⟨hmem, hact, ?_⟩
      rintro ⟨d2, hd2, hd2a, hd2d⟩
      have := List.find?_eq_none.mp hfd d2 hd2
      simp [hd2a, hd2d] at this
    · have hsel : selectMethod (storeMethods methods st.id) = some d := by
        simp [selectMethod, hfd, Option.orElse]
      rw [hsel] at hm
      injection hm with hdm
      subst hdm
      have hmem := List.mem_of_find?_eq_some hfd
      have hp := List.find?_some hfd
      rcases Bool.and_eq_true .. |>.mp hp with ⟨ha, hd⟩
      exact ⟨hmem, ha, fun _ => hd⟩
  · rintro ⟨m0, hm0, hm0a⟩
    rcases hfd : (storeMethods methods st.id).find?
        (fun m2 => m2.is_active && m2.is_default) with _ | d
    · rcases hfa2 : (storeMethods methods st.id).find? (fun m2 => m2.is_active)
          with _ | m
      · exfalso
        have := List.find?_eq_none.mp hfa2 m0 hm0
        exact this hm0a
      · have hsel : selectMethod (storeMethods methods st.id) = some m := by
          simp [selectMethod, hfd, hfa2, Option.orElse]
        exact ⟨m, hsel, by simp [checkout_start, hsel]⟩
    · have hsel : selectMethod (storeMethods methods st.id) = some d := by
        simp [selectMethod, hfd, Option.orElse]
      exact ⟨d, hsel, by simp [checkout_start, hsel]⟩

/-- Witness for C6: a store whose only payment method is inactive gets the
no-active-method failure; with an active PayPal method checkout redirects. -/
theorem c6_witness :
    checkout_start (some sampleStoreA) [{ samplePmA with is_active := false }] "S" "C"
      = CheckoutResult.noActiveMethod := by
  exact ((c6_checkout_needs_active_method sampleStoreA
    [{ samplePmA with is_active := false }] "S" "C").1 (by decide)).2

/-- Claim C8: an order item created against a product (with the model's field
defaults) snapshots `name` and `unit_price` from the product at creation
time, and a later `edit_product` touches only the products table, leaving
the stored item rows — hence their names, unit prices and line totals —
unchanged. -/
theorem c8_order_item_snapshot (w : World) (p : Product)
    (itemId orderId qty : Nat)
    (hp : relatedProduct w.products p.id = some p)
    (hpid : p.id ≠ 0) :
    createOrderItem w.products w.order_items itemId orderId p.id qty
      = some (w.order_items ++ [snapshotItem itemId orderId qty p],
              snapshotItem itemId orderId qty p)
  ∧ (snapshotItem itemId orderId qty p).name = p.name
  ∧ (snapshotItem itemId orderId qty p).unit_price = some p.price
  ∧ OrderItem.line_total (snapshotItem itemId orderId qty p) = (qty : Int) * p.price
  ∧ ∀ (pid : Nat) (nm desc : String) (pr : Option (Option Int)),
      (edit_product
          { w with order_items := w.order_items ++ [snapshotItem itemId orderId qty p] }
          pid nm desc pr).fst.order_items
        = w.order_items ++ [snapshotItem itemId orderId qty p] := by
  refine ⟨?_, rfl, rfl, ?_, ?_⟩
  · simp [createOrderItem, OrderItem.save, hp, hpid, snapshotItem]
  · simp [OrderItem.line_total, snapshotItem]
  · intro pid nm desc pr
    rcases pr with _ | pr2
    · by_cases hnm : nm = "" <;> simp [edit_product, hnm]
    · rcases pr2 with _ | v
      · simp [edit_product]
      · by_cases hnm : nm = "" <;> simp [edit_product, hnm]

/-- Witness for C8 at concrete inputs. -/
theorem c8_witness :
    createOrderItem sampleWorld.products sampleWorld.order_items 11 7 5 2
      = some (sampleWorld.order_items ++ [snapshotItem 11 7 2 sampleProductTee],
              snapshotItem 11 7 2 sampleProductTee) :=
  (c8_order_item_snapshot sampleWorld sampleProductTee 11 7 2
    (by decide) (by decide)).1

/-- Splitting the count over a half-open integer interval at its top key. -/
theorem countP_interval_succ {α : Type} (key : α → Int) (l : List α) (a : Int)
    (n : Nat) :
    l.countP (fun x => decide (a ≤ key x) && decide (key x < a + (n : Int) + 1))
      = l.countP (fun x => decide (a ≤ key x) && decide (key x < a + (n : Int)))
        + l.countP (fun x => key x == a + (n : Int)) := by
  induction l with
  | nil => rfl
  | cons x xs ih =>
    rw [List.countP_cons, List.countP_cons, List.countP_cons, ih]
    have hx : (if (decide (a ≤ key x) && decide (key x < a + (n : Int) + 1)) = true
          then 1 else 0)
        = (if (decide (a ≤ key x) && decide (key x < a + (n : Int))) = true
            then 1 else 0)
          + (if (key x == a + (n : Int)) = true then 1 else 0) := by
      by_cases h1 : a ≤ key x
      · by_cases h2 : key x < a + (n : Int)
        · have h3 : key x < a + (n : Int) + 1 := by omega
          have h4 : ¬key x = a + (n : Int) := by omega
          simp [h1, h2, h3, h4]
        · by_cases h3 : key x < a + (n : Int) + 1
          · have h4 : key x = a + (n : Int) := by omega
            simp [h1, h2, h3, h4]
          · have h4 : ¬key x = a + (n : Int) := by omega
            simp [h1, h2, h3, h4]
      · have h4 : ¬key x = a + (n : Int) := by omega
        simp [h1, h4]
    omega

/-- Summing per-key counts over `n` consecutive integer keys counts the
elements whose key lies in the interval. -/
theorem sum_range_key_counts {α : Type} (key : α → Int) (l : List α) (a : Int)
    (n : Nat) :
    ((List.range n).map (fun (i : Nat) =>
        l.countP (fun x => key x == a + (i : Int)))).sum
      = l.countP (fun x => decide (a ≤ key x) && decide (key x < a + (n : Int))) := by
  induction n with
  | zero =>
    simp only [List.range_zero, List.map_nil, List.sum_nil]
    symm
    rw [List.countP_eq_zero]
    intro x hx
    simp only [Nat.cast_zero, Bool.and_eq_true, decide_eq_true_eq, not_and]
    omega
  | succ n ih =>
    rw [List.range_succ, List.map_append, List.sum_append, ih, List.map_cons,
      List.map_nil, List.sum_cons, List.sum_nil]
    have hsplit := countP_interval_succ key l a n
    have hcast : ∀ x : α, (key x < a + ((n + 1 : Nat) : Int)) = (key x < a + (n : Int) + 1) := by
      intro x
      congr 1
      push_cast
      ring
    simp only [hcast]
    omega

/-- The date key of slot `i` is the `i`-th day of the series' ascending date
range, whose last entry is today's date. -/
theorem seriesKey_eq (now : Int) (days i : Nat) (hi : i < days) :
    seriesKey now days i = (dateOf now - (days : Int) + 1) + (i : Int) := by
  unfold seriesKey dateOf
  have h1 : ((days - 1 - i : Nat) : Int) = (days : Int) - 1 - (i : Int) := by omega
  rw [h1]
  have h2 := Int.add_mul_ediv_right now (-((days : Int) - 1 - (i : Int)))
    (by norm_num : (86400 : Int) ≠ 0)
  have h3 : now - ((days : Int) - 1 - (i : Int)) * 86400
      = now + -((days : Int) - 1 - (i : Int)) * 86400 := by ring
  rw [h3, h2]
  ring

/-- Claim C5 (amended): the requested range is clamped into {7, 30, 90} (7 on
anything else), the series has exactly that many entries, slots whose date
has no window orders are explicit zeros, and the series total counts the
window orders whose date lies in the series' date range (the original
claim's stronger equation with the whole window count is refuted by
`c5_sum_counterexample`). -/
theorem c5_reports_series_shape (orders : List Order) (sid : Nat) (now : Int)
    (raw : Option (Option Int)) :
    (parseRangeDays raw = 7 ∨ parseRangeDays raw = 30 ∨ parseRangeDays raw = 90)
  ∧ (∀ n : Int, raw = some (some n) → ¬(n = 7 ∨ n = 30 ∨ n = 90) →
      parseRangeDays raw = 7)
  ∧ (orders_series orders sid now (parseRangeDays raw)).length = parseRangeDays raw
  ∧ (∀ i (h : i < (orders_series orders sid now (parseRangeDays raw)).length),
      (∀ o ∈ storeWindowOrders orders sid now (parseRangeDays raw),
        dateOf o.created_at ≠ seriesKey now (parseRangeDays raw) i) →
      (orders_series orders sid now (parseRangeDays raw)).get ⟨i, h⟩ = 0)
  ∧ (orders_series orders sid now (parseRangeDays raw)).sum
      = ((storeWindowOrders orders sid now (parseRangeDays raw)).filter
          (fun o => decide (dateOf now - ((parseRangeDays raw : Nat) : Int) + 1
                      ≤ dateOf o.created_at)
                    && decide (dateOf o.created_at ≤ dateOf now))).length := by
  refine ⟨?_, ?_, ?_, ?_, ?_⟩
  · rcases raw with _ | pr
    · left; rfl
    · rcases pr with _ | n
      · left; rfl
      · simp only [parseRangeDays, clampDays]
        by_cases h : n = 7 ∨ n = 30 ∨ n = 90
        · rcases h with rfl | rfl | rfl
          · left; rfl
          · right; left; rfl
          · right; right; rfl
        · rw [if_neg h]; left; rfl
  · intro n hraw hn
    subst hraw
    simp only [parseRangeDays, clampDays, if_neg hn]
  · generalize parseRangeDays raw = days
    simp [orders_series]
  · generalize parseRangeDays raw = days
    intro i h hempty
    simp only [orders_series, List.get_eq_getElem, List.getElem_map, List.getElem_range]
    rw [List.length_eq_zero, List.filter_eq_nil_iff]
    intro o ho
    simpa using hempty o ho
  · generalize parseRangeDays raw = days
    have hser : orders_series orders sid now days
        = (List.range days).map (fun (i : Nat) =>
            (storeWindowOrders orders sid now days).countP
              (fun o => dateOf o.created_at
                == (dateOf now - (days : Int) + 1) + (i : Int))) := by
      unfold orders_series
      apply List.map_congr_left
      intro i hi
      rw [← List.countP_eq_length_filter]
      have hk := seriesKey_eq now days i (List.mem_range.mp hi)
      simp only [hk]
    rw [hser, sum_range_key_counts, List.countP_eq_length_filter]
    congr 1
    apply List.filter_congr
    intro o ho
    have hiff : (dateOf o.created_at < (dateOf now - (days : Int) + 1) + (days : Int))
        ↔ dateOf o.created_at ≤ dateOf now := by omega
    congr 1
    exact decide_eq_decide.mpr hiff

/-- Counterexample to C5 as stated: with `now` one hour past midnight of day
100 and a single order created exactly at `now - 7 days` (one hour past
midnight of day 93), the order is inside the 7x24h window (`total_orders`
is 1) but its calendar date, day 93, precedes every series slot (days
94..100), so the series sums to 0. -/
theorem c5_sum_counterexample :
    (orders_series
        [{ id := 1, store := 1, status := "paid", subtotal := 2500, total := 2500,
           created_at := 93 * 86400 + 3600 }] 1 (100 * 86400 + 3600)
        (parseRangeDays none)).sum
      ≠ total_orders
          [{ id := 1, store := 1, status := "paid", subtotal := 2500, total := 2500,
             created_at := 93 * 86400 + 3600 }] 1 (100 * 86400 + 3600)
          (parseRangeDays none) := by decide

/-- Witness for C5 at concrete inputs: a non-member range (12) clamps to 7 and
the concrete series of the counterexample database sums to the count of
date-range orders (0). -/
theorem c5_witness :
    parseRangeDays (some (some 12)) = 7
  ∧ (orders_series
      [{ id := 1, store := 1, status := "paid", subtotal := 2500, total := 2500,
         created_at := 93 * 86400 + 3600 }] 1 (100 * 86400 + 3600)
      (parseRangeDays (some (some 12)))).length = parseRangeDays (some (some 12))
  ∧ (orders_series
      [{ id := 1, store := 1, status := "paid", subtotal := 2500, total := 2500,
         created_at := 93 * 86400 + 3600 }] 1 (100 * 86400 + 3600)
      (parseRangeDays none)).sum
      = ((storeWindowOrders
            [{ id := 1, store := 1, status := "paid", subtotal := 2500, total := 2500,
               created_at := 93 * 86400 + 3600 }] 1 (100 * 86400 + 3600)
            (parseRangeDays none)).filter
          (fun o => decide (dateOf (100 * 86400 + 3600)
                      - ((parseRangeDays none : Nat) : Int) + 1 ≤ dateOf o.created_at)
                    && decide (dateOf o.created_at ≤ dateOf (100 * 86400 + 3600)))).length := by
  refine ⟨?_, ?_, ?_⟩
  · exact (c5_reports_series_shape [] 1 0 (some (some 12))).2.1 12 rfl (by decide)
  · exact (c5_reports_series_shape
      [{ id := 1, store := 1, status := "paid", subtotal := 2500, total := 2500,
         created_at := 93 * 86400 + 3600 }] 1 (100 * 86400 + 3600)
      (some (some 12))).2.2.1
  · exact (c5_reports_series_shape
      [{ id := 1, store := 1, status := "paid", subtotal := 2500, total := 2500,
         created_at := 93 * 86400 + 3600 }] 1 (100 * 86400 + 3600) none).2.2.2.2

/-- Membership in the owned non-archived queryset. -/
theorem mem_ownedActiveStores {stores : List MerchantStore} {u : Nat}
    {s : MerchantStore} :
    s ∈ ownedActiveStores stores u
      ↔ s ∈ stores ∧ s.owner = u ∧ s.is_archived = false := by
  simp [ownedActiveStores, List.mem_filter, Bool.and_eq_true, beq_iff_eq,
    Bool.not_eq_true', and_assoc]

/-- A successful primary-key lookup returns a member with that key. -/
theorem qsGet_some {qs : List MerchantStore} {k : Int} {s : MerchantStore}
    (h : qsGet qs k = some s) : s ∈ qs ∧ (s.id : Int) = k := by
  refine ⟨List.mem_of_find?_eq_some h, ?_⟩
  have := List.find?_some h
  simpa using this

/-- A failed primary-key lookup means no member has that key. -/
theorem qsGet_none {qs : List MerchantStore} {k : Int} (h : qsGet qs k = none) :
    ∀ s ∈ qs, (s.id : Int) ≠ k := by
  intro s hs
  have := List.find?_eq_none.mp h s hs
  simpa using this

/-- No member with the key means the lookup fails. -/
theorem qsGet_none_of {qs : List MerchantStore} {k : Int}
    (h : ∀ s ∈ qs, (s.id : Int) ≠ k) : qsGet qs k = none := by
  rw [qsGet, List.find?_eq_none]
  intro x hx
  simpa using h x hx


/-- With pairwise-distinct ids, looking a member's own id up finds it. -/
theorem qsGet_of_mem {qs : List MerchantStore} {s : MerchantStore}
    (hnodup : (qs.map (fun x => x.id)).Nodup) (hs : s ∈ qs) :
    qsGet qs ((s.id : Int)) = some s := by
  induction qs with
  | nil => simp at hs
  | cons x xs ih =>
    simp only [List.map_cons, List.nodup_cons] at hnodup
    rcases List.mem_cons.mp hs with rfl | hsxs
    · simp [qsGet, List.find?]
    · have hne : (((x.id : Nat) : Int) == ((s.id : Nat) : Int)) = false := by
        simp only [beq_eq_false_iff_ne, ne_eq, Nat.cast_inj]
        intro hxy
        exact hnodup.1 (hxy ▸ List.mem_map_of_mem (fun m => m.id) hsxs)
      have ih2 := ih hnodup.2 hsxs
      rw [qsGet] at ih2 ⊢
      simp only [List.find?, hne]
      exact ih2

/-- The owned-active filter keeps the id column duplicate-free. -/
theorem ownedActiveStores_nodup {stores : List MerchantStore} {u : Nat}
    (h : (stores.map (fun s => s.id)).Nodup) :
    ((ownedActiveStores stores u).map (fun s => s.id)).Nodup :=
  List.Nodup.sublist (List.Sublist.map (fun s => s.id) (List.filter_sublist stores)) h

/-- With no owned non-archived store, the queryset is empty. -/
theorem ownedActiveStores_eq_nil {stores : List MerchantStore} {u : Nat}
    (h : ∀ s ∈ stores, s.owner = u → s.is_archived = false → False) :
    ownedActiveStores stores u = [] := by
  rw [ownedActiveStores, List.filter_eq_nil_iff]
  intro s hs
  simp only [Bool.and_eq_true, beq_iff_eq, Bool.not_eq_true', not_and]
  exact fun h1 h2 => absurd h2 (fun h2 => h s hs h1 h2)

/-- `firstByCreated` finds an element on every non-empty list. -/
theorem firstByCreated_isSome (x : MerchantStore) (xs : List MerchantStore) :
    ∃ s, firstByCreated (x :: xs) = some s := by
  unfold firstByCreated
  rcases hr : firstByCreated xs with _ | t
  · exact ⟨x, rfl⟩
  · by_cases hlt : t.created_at < x.created_at
    · refine ⟨t, ?_⟩
      show (if t.created_at < x.created_at then some t else some x) = some t
      rw [if_pos hlt]
    · refine ⟨x, ?_⟩
      show (if t.created_at < x.created_at then some t else some x) = some x
      rw [if_neg hlt]

/-- `firstByCreated` returns nothing only on the empty list. -/
theorem firstByCreated_none {l : List MerchantStore}
    (h : firstByCreated l = none) : l = [] := by
  cases l with
  | nil => rfl
  | cons x xs =>
    rcases firstByCreated_isSome x xs with ⟨s, hs⟩
    rw [hs] at h
    simp at h

/-- `firstByCreated` returns a member of least `created_at`. -/
theorem firstByCreated_spec {l : List MerchantStore} {s : MerchantStore}
    (h : firstByCreated l = some s) :
    s ∈ l ∧ ∀ t ∈ l, s.created_at ≤ t.created_at := by
  induction l generalizing s with
  | nil => simp [firstByCreated] at h
  | cons x xs ih =>
    unfold firstByCreated at h
    rcases hr : firstByCreated xs with _ | t <;> rw [hr] at h
    · have h2 : some x = some s := h
      injection h2 with h2
      subst h2
      have hnil := firstByCreated_none hr
      subst hnil
      refine ⟨List.mem_cons_self x [], ?_⟩
      intro t ht
      rcases List.mem_cons.mp ht with rfl | h3
      · exact le_refl _
      · simp at h3
    · rcases ih hr with ⟨hmem, hmin⟩
      have h2 : (if t.created_at < x.created_at then some t else some x) = some s := h
      by_cases hlt : t.created_at < x.created_at
      · rw [if_pos hlt] at h2
        injection h2 with h2
        subst h2
        refine ⟨List.mem_cons_of_mem _ hmem, ?_⟩
        intro u hu
        rcases List.mem_cons.mp hu with rfl | huxs
        · omega
        · exact hmin u huxs
      · rw [if_neg hlt] at h2
        injection h2 with h2
        subst h2
        refine ⟨List.mem_cons_self _ _, ?_⟩
        intro u hu
        rcases List.mem_cons.mp hu with rfl | huxs
        · exact le_refl _
        · have := hmin u huxs
          omega

/-- Definitional unfolding of the fallback step. -/
theorem gcsFallback_eq (qs : List MerchantStore) (sess : Option Int) :
    gcsFallback qs sess =
      (match firstByCreated qs with
       | some st => (some st, some (st.id : Int))
       | none => (none, sess)) := rfl

/-- Definitional unfolding of the session step on an absent session id. -/
theorem gcsSession_none_eq (qs : List MerchantStore) :
    gcsSession qs none = gcsFallback qs none := rfl

/-- Definitional unfolding of the session step on a present session id. -/
theorem gcsSession_some_eq (qs : List MerchantStore) (j : Int) :
    gcsSession qs (some j) =
      (if j ≠ 0 then
        (match qsGet qs j with
         | some st => (some st, some j)
         | none => gcsFallback qs none)
       else gcsFallback qs (some j)) := rfl

/-- The fallback step: on a successful `first()` it returns the earliest
store and persists its id. -/
theorem gcsFallback_fst {qs : List MerchantStore} {sess : Option Int}
    {s : MerchantStore} (h : (gcsFallback qs sess).fst = some s) :
    s ∈ qs ∧ (gcsFallback qs sess).snd = some (s.id : Int)
      ∧ ∀ t ∈ qs, s.created_at ≤ t.created_at := by
  rw [gcsFallback_eq] at h ⊢
  rcases hf : firstByCreated qs with _ | t <;> rw [hf] at h
  · exact absurd h (by simp)
  · have h2 : some t = some s := h
    injection h2 with h2
    subst h2
    rcases firstByCreated_spec hf with ⟨hmem, hmin⟩
    exact ⟨hmem, rfl, hmin⟩

/-- The session step: whatever it resolves is a queryset member whose id ends
up in the session afterwards. -/
theorem gcsSession_fst {qs : List MerchantStore} {sess : Option Int}
    {s : MerchantStore} (h : (gcsSession qs sess).fst = some s) :
    s ∈ qs ∧ (gcsSession qs sess).snd = some (s.id : Int) := by
  rcases sess with _ | j
  · rw [gcsSession_none_eq] at h ⊢
    rcases gcsFallback_fst h with ⟨h1, h2, h3⟩
    exact ⟨h1, h2⟩
  · rw [gcsSession_some_eq] at h ⊢
    by_cases hj : j ≠ 0
    · rw [if_pos hj] at h ⊢
      rcases hq : qsGet qs j with _ | st <;> rw [hq] at h
      · rcases gcsFallback_fst h with ⟨h1, h2, h3⟩
        exact ⟨h1, h2⟩
      · have h2 : some st = some s := h
        injection h2 with h2
        subst h2
        rcases qsGet_some hq with ⟨hmem, hid⟩
        exact ⟨hmem, by rw [hid]⟩
    · rw [if_neg hj] at h ⊢
      rcases gcsFallback_fst h with ⟨h1, h2, h3⟩
      exact ⟨h1, h2⟩

/-- The session step on a truthy id naming a queryset member. -/
theorem gcsSession_hit {qs : List MerchantStore} {j : Int} {s : MerchantStore}
    (hj : j ≠ 0) (hget : qsGet qs j = some s) :
    gcsSession qs (some j) = (some s, some j) := by
  rw [gcsSession_some_eq, if_pos hj, hget]

/-- The session step falls through to `first()` whenever the session holds no
truthy id naming a queryset member. -/
theorem gcsSession_fallback {qs : List MerchantStore} {sess : Option Int}
    {sf : MerchantStore}
    (hmiss : ∀ j, sess = some j → j ≠ 0 → ∀ s ∈ qs, (s.id : Int) ≠ j)
    (hf : firstByCreated qs = some sf) :
    gcsSession qs sess = (some sf, some (sf.id : Int)) := by
  rcases sess with _ | j
  · rw [gcsSession_none_eq, gcsFallback_eq, hf]
  · by_cases hj : j ≠ 0
    · rw [gcsSession_some_eq, if_pos hj, qsGet_none_of (hmiss j rfl hj),
        gcsFallback_eq, hf]
    · rw [gcsSession_some_eq, if_neg hj, gcsFallback_eq, hf]

/-- With no stores in the queryset, the session step resolves nothing. -/
theorem gcsSession_nil_fst (sess : Option Int) :
    (gcsSession ([] : List MerchantStore) sess).fst = none := by
  rcases sess with _ | j
  · rfl
  · by_cases hj : j ≠ 0
    · rw [gcsSession_some_eq, if_pos hj]
      rfl
    · rw [gcsSession_some_eq, if_neg hj]
      rfl

/-- With no stores in the queryset, a truthy stale session id is popped and
nothing replaces it. -/
theorem gcsSession_nil_stale {j : Int} (hj : j ≠ 0) :
    gcsSession ([] : List MerchantStore) (some j) = (none, none) := by
  rw [gcsSession_some_eq, if_pos hj]
  rfl

/-- The resolver on an authenticated request with a parseable override. -/
theorem get_current_store_override (stores : List MerchantStore) (req : Request)
    (hauth : req.authenticated = true) {k : Int}
    (hparam : req.store_param = some (some k)) :
    get_current_store stores req =
      (match qsGet (ownedActiveStores stores req.user) k with
       | some st => (some st, some (st.id : Int))
       | none => gcsSession (ownedActiveStores stores req.user) req.session_store) := by
  simp [get_current_store, hauth, hparam]

/-- The resolver on an authenticated request with an absent or unparseable
override. -/
theorem get_current_store_no_override (stores : List MerchantStore) (req : Request)
    (hauth : req.authenticated = true)
    (hparam : req.store_param = none ∨ req.store_param = some none) :
    get_current_store stores req =
      gcsSession (ownedActiveStores stores req.user) req.session_store := by
  rcases hparam with h | h <;> simp [get_current_store, hauth, h]

/-- Claim C3: for every authenticated identity, resolution returns, first
match wins: the explicit override id when it names an owned non-archived
store (persisting it in the session); else the session id when it still
names one (a stale truthy entry is cleared otherwise); else the identity's
earliest-created owned non-archived store; and none — no exception in the
model — when no owned non-archived store exists.  Every successful
resolution leaves the resolved id persisted in the session. -/
theorem c3_active_store_resolution (stores : List MerchantStore) (req : Request)
    (hauth : req.authenticated = true)
    (hnodup : (stores.map (fun s => s.id)).Nodup) :
    (∀ s, (get_current_store stores req).fst = some s →
      s ∈ stores ∧ s.owner = req.user ∧ s.is_archived = false
      ∧ (get_current_store stores req).snd = some (s.id : Int))
  ∧ (∀ s ∈ stores, s.owner = req.user → s.is_archived = false →
      req.store_param = some (some (s.id : Int)) →
      get_current_store stores req = (some s, some (s.id : Int)))
  ∧ ((∀ k, req.store_param = some (some k) →
        ∀ s ∈ stores, s.owner = req.user → s.is_archived = false →
          (s.id : Int) ≠ k) →
      (∀ s ∈ stores, s.owner = req.user → s.is_archived = false →
        req.session_store = some (s.id : Int) → (s.id : Int) ≠ 0 →
        get_current_store stores req = (some s, some (s.id : Int)))
      ∧ ((∀ j, req.session_store = some j → j ≠ 0 →
            ∀ s ∈ stores, s.owner = req.user → s.is_archived = false →
              (s.id : Int) ≠ j) →
          (∀ s0 ∈ stores, s0.owner = req.user → s0.is_archived = false →
            ∃ s, (get_current_store stores req).fst = some s
              ∧ s ∈ stores ∧ s.owner = req.user ∧ s.is_archived = false
              ∧ (∀ s2 ∈ stores, s2.owner = req.user → s2.is_archived = false →
                  s.created_at ≤ s2.created_at)
              ∧ (get_current_store stores req).snd = some (s.id : Int))
          ∧ (∀ j, req.session_store = some j → j ≠ 0 →
              (∀ s ∈ stores, s.owner = req.user → s.is_archived = false → False) →
              (get_current_store stores req).snd = none)))
  ∧ ((∀ s ∈ stores, s.owner = req.user → s.is_archived = false → False) →
      (get_current_store stores req).fst = none) := by
  have hqnodup := ownedActiveStores_nodup (u := req.user) hnodup
  refine ⟨?_, ?_, ?_, ?_⟩
  · -- any resolved store is owned, non-archived, and its id is persisted
    intro s h
    have hbase : s ∈ ownedActiveStores stores req.user
        ∧ (get_current_store stores req).snd = some (s.id : Int) := by
      rcases hsp : req.store_param with _ | pr
      · rw [get_current_store_no_override stores req hauth (Or.inl hsp)] at h ⊢
        exact gcsSession_fst h
      · rcases pr with _ | k
        · rw [get_current_store_no_override stores req hauth (Or.inr hsp)] at h ⊢
          exact gcsSession_fst h
        · rw [get_current_store_override stores req hauth hsp] at h ⊢
          rcases hq : qsGet (ownedActiveStores stores req.user) k with _ | st
            <;> rw [hq] at h
          · exact gcsSession_fst h
          · have h2 : some st = some s := h
            injection h2 with h2
            subst h2
            exact ⟨(qsGet_some hq).1, rfl⟩
    rcases mem_ownedActiveStores.mp hbase.1 with ⟨h1, h2, h3⟩
    exact ⟨h1, h2, h3, hbase.2⟩
  · -- override hit
    intro s hs howner harch hparam
    have hsqs : s ∈ ownedActiveStores stores req.user :=
      mem_ownedActiveStores.mpr ⟨hs, howner, harch⟩
    rw [get_current_store_override stores req hauth hparam,
      qsGet_of_mem hqnodup hsqs]
  · intro hoverride
    have hovermiss : ∀ k, req.store_param = some (some k) →
        qsGet (ownedActiveStores stores req.user) k = none := by
      intro k hk
      apply qsGet_none_of
      intro s hsqs
      rcases mem_ownedActiveStores.mp hsqs with ⟨h1, h2, h3⟩
      exact hoverride k hk s h1 h2 h3
    have hreach : ∀ r, gcsSession (ownedActiveStores stores req.user)
        req.session_store = r → get_current_store stores req = r := by
      intro r hr
      rcases hsp : req.store_param with _ | pr
      · rw [get_current_store_no_override stores req hauth (Or.inl hsp)]
        exact hr
      · rcases pr with _ | k
        · rw [get_current_store_no_override stores req hauth (Or.inr hsp)]
          exact hr
        · rw [get_current_store_override stores req hauth hsp, hovermiss k hsp]
          exact hr
    refine ⟨?_, ?_⟩
    · -- session hit
      intro s hs howner harch hsess hzero
      have hsqs : s ∈ ownedActiveStores stores req.user :=
        mem_ownedActiveStores.mpr ⟨hs, howner, harch⟩
      apply hreach
      rw [hsess]
      exact gcsSession_hit hzero (qsGet_of_mem hqnodup hsqs)
    intro hsessmiss
    refine ⟨?_, ?_⟩
    · -- fallback to the earliest-created store
      intro s0 hs0 howner0 harch0
      have hs0qs : s0 ∈ ownedActiveStores stores req.user :=
        mem_ownedActiveStores.mpr ⟨hs0, howner0, harch0⟩
      have hqsne : ownedActiveStores stores req.user ≠ [] := by
        intro hnil
        rw [hnil] at hs0qs
        simp at hs0qs
      rcases hf : firstByCreated (ownedActiveStores stores req.user) with _ | sf
      · exact absurd (firstByCreated_none hf) hqsne
      · have hmiss2 : ∀ j, req.session_store = some j → j ≠ 0 →
            ∀ s ∈ ownedActiveStores stores req.user, (s.id : Int) ≠ j := by
          intro j hj hj0 s hsqs
          rcases mem_ownedActiveStores.mp hsqs with ⟨h1, h2, h3⟩
          exact hsessmiss j hj hj0 s h1 h2 h3
        have hres := hreach _ (gcsSession_fallback hmiss2 hf)
        rcases firstByCreated_spec hf with ⟨hmem, hmin⟩
        rcases mem_ownedActiveStores.mp hmem with ⟨h1, h2, h3⟩
        refine ⟨sf, by rw [hres], h1, h2, h3, ?_, by rw [hres]⟩
        intro s2 hs2 howner2 harch2
        exact hmin s2 (mem_ownedActiveStores.mpr ⟨hs2, howner2, harch2⟩)
    · -- stale truthy session cleared when nothing remains
      intro j hj hj0 hnone
      have hnil := ownedActiveStores_eq_nil hnone
      have hres := hreach (none, none) (by
        rw [hnil, hj]
        exact gcsSession_nil_stale hj0)
      rw [hres]
  · -- no owned non-archived store at all
    intro hnone
    have hnil := ownedActiveStores_eq_nil hnone
    rcases hsp : req.store_param with _ | pr
    · rw [get_current_store_no_override stores req hauth (Or.inl hsp), hnil]
      exact gcsSession_nil_fst _
    · rcases pr with _ | k
      · rw [get_current_store_no_override stores req hauth (Or.inr hsp), hnil]
        exact gcsSession_nil_fst _
      · rw [get_current_store_override stores req hauth hsp, hnil]
        have hq : qsGet ([] : List MerchantStore) k = none := rfl
        rw [hq]
        exact gcsSession_nil_fst _

/-- Witness for C3 at concrete inputs: an override naming owned store 1
resolves it and persists id 1; with no override and a stale session id 99,
the earliest-created store (id 2, created at 3 < 5) is resolved and its id
persisted. -/
theorem c3_witness :
    get_current_store [sampleStoreA, sampleStoreB]
        (⟨true, 10, some (some 1), none⟩ : Request)
      = (some sampleStoreA, some 1)
  ∧ (get_current_store [sampleStoreA, sampleStoreB]
        (⟨true, 10, none, some 99⟩ : Request)).snd
      = some 2 := by
  constructor
  · exact (c3_active_store_resolution [sampleStoreA, sampleStoreB]
      (⟨true, 10, some (some 1), none⟩ : Request) rfl (by decide)).2.1
      sampleStoreA (by decide) rfl rfl rfl
  · have h := ((c3_active_store_resolution [sampleStoreA, sampleStoreB]
      (⟨true, 10, none, some 99⟩ : Request) rfl (by decide)).2.2.1
      (by intro k hk; exact Option.noConfusion hk)).2
      (by
        intro j hj hj0 s hs h1 h2
        injection hj with hj
        subst hj
        rcases List.mem_cons.mp hs with rfl | hs2
        · decide
        · rcases List.mem_cons.mp hs2 with rfl | hs3
          · decide
          · simp at hs3)
    obtain ⟨s, hfst, hmem, hown, harch, hmin, hsnd⟩ :=
      h.1 sampleStoreA (by decide) rfl rfl
    have hminB := hmin sampleStoreB (by decide) rfl rfl
    rcases List.mem_cons.mp hmem with rfl | hm2
    · exact absurd hminB (by decide)
    · rcases List.mem_cons.mp hm2 with rfl | hm3
      · exact hsnd
      · simp at hm3

end Majic
